import Mathlib

/-!
Verification of the MatrixReshaper core of the `shhor` dashboard
(`src/app.py`): loading a labeled co-occurrence matrix, reshaping it into
node and edge tables, and filtering edges by a threshold.

The embedding follows the source line by line:
* `load_data` models `load_data` (app.py lines 27-38): `pd.read_csv` outcomes
  become a `FileResult`; only `FileNotFoundError` is caught, and the
  `'general'` drop is guarded by `'general' in df.columns` alone, with
  `df.drop('general', axis=0)` raising `KeyError` when the row is missing.
* `toNodes` models `nodes_df` (line 69): `reset_index` assigns ids by
  position.
* `name_to_id` models the dict comprehension (line 72): later entries
  overwrite earlier ones.
* `toEdges` models `links` (lines 70-74): `stack()` enumerates cells in
  row-major order; `map` on a missing key yields NaN, modelled as `none`.
* `filterEdges` models `links_filtered` (line 77): pandas `!=` on NaN
  operands is `True`, captured by `idNe`.
-/

namespace Shhor

/-- A parsed pandas DataFrame: row labels (`index`), column labels
(`columns`), and the cell values row by row.  Cell values are the CSV's
non-negative integer counts. -/
structure DataFrame where
  index : List String
  columns : List String
  data : List (List Nat)
deriving DecidableEq

/-- What `pd.read_csv` does with the given path: the file is missing, the
file exists but cannot be parsed, or it parses to a DataFrame. -/
inductive FileResult where
  | notFound : FileResult
  | parseFailure : FileResult
  | parsed : DataFrame → FileResult
deriving DecidableEq

/-- Outcome of `load_data`: the caught-`FileNotFoundError` branch
(`st.error` shown, `None` returned), an exception that propagates out of
the function uncaught, or a returned matrix. -/
inductive LoadResult where
  | errorNone : LoadResult
  | uncaught : LoadResult
  | matrix : DataFrame → LoadResult
deriving DecidableEq

/-- `df.drop(l, axis=1)`: remove every column labeled `l`. -/
def dropCol (df : DataFrame) (l : String) : DataFrame :=
  { index := df.index
    columns := df.columns.filter (fun c => c ≠ l)
    data := df.data.map (fun row =>
      ((df.columns.zip row).filter (fun p => p.1 ≠ l)).map Prod.snd) }

/-- `df.drop(l, axis=0)`: remove every row labeled `l`. -/
def dropRow (df : DataFrame) (l : String) : DataFrame :=
  { index := df.index.filter (fun r => r ≠ l)
    columns := df.columns
    data := ((df.index.zip df.data).filter (fun p => p.1 ≠ l)).map Prod.snd }

/-- `load_data` (app.py lines 27-38).  The `try` block catches only
`FileNotFoundError`; any other exception (a parse failure, or the
`KeyError` raised by `df.drop('general', axis=0)` when `'general'` is a
column label but not a row label) propagates uncaught. -/
def load_data : FileResult → LoadResult
  | .notFound => .errorNone
  | .parseFailure => .uncaught
  | .parsed df =>
    if "general" ∈ df.columns then
      if "general" ∈ df.index then
        .matrix (dropRow (dropCol df "general") "general")
      else
        .uncaught
    else
      .matrix df

/-- A row of `nodes_df`: positional id and row label. -/
structure Node where
  id : Nat
  name : String
deriving DecidableEq

/-- `nodes_df` (line 69): one node per row of the matrix, id assigned by
`reset_index`, i.e. by 0-based row position. -/
def toNodes (df : DataFrame) : List Node :=
  df.index.enum.map (fun p => { id := p.1, name := p.2 })

/-- The dict comprehension `{name: i for i, name in enumerate(index)}`
followed by lookup: iterated in order, a later occurrence of the same
label overwrites an earlier one; a label not present maps to NaN (`none`). -/
def name_to_id (index : List String) (name : String) : Option Nat :=
  index.enum.foldl (fun acc p => if p.2 = name then some p.1 else acc) none

/-- A row of the `links` table (lines 70-74): the stacked cell's row and
column labels, its value, and the mapped ids (NaN as `none`). -/
structure Edge where
  source_name : String
  target_name : String
  value : Nat
  source : Option Nat
  target : Option Nat
deriving DecidableEq

/-- `links` (lines 70-74): `data_matrix.stack()` enumerates cells row by
row, for each row in the matrix's column order; `reset_index` keeps that
order, and lines 73-74 map both labels through `name_to_id`. -/
def toEdges (df : DataFrame) : List Edge :=
  (df.index.zip df.data).flatMap (fun p =>
    (df.columns.zip p.2).map (fun q =>
      { source_name := p.1
        target_name := q.1
        value := q.2
        source := name_to_id df.index p.1
        target := name_to_id df.index q.1 }))

/-- Pandas element-wise `!=` on the id columns: comparisons where either
operand is NaN evaluate to `True`. -/
def idNe : Option Nat → Option Nat → Bool
  | some a, some b => decide (a ≠ b)
  | _, _ => true

/-- `links_filtered` (line 77):
`links[(links.source != links.target) & (links.value >= threshold)]`. -/
def filterEdges (edges : List Edge) (t : Nat) : List Edge :=
  edges.filter (fun e => idNe e.source e.target && decide (t ≤ e.value))

/-- The 3×3 example matrix of spec §8: categories A, B, C with A-B=10,
A-C=60, B-C=5 and zero diagonal, stored symmetrically. -/
def exampleMatrix : DataFrame :=
  ⟨["A", "B", "C"], ["A", "B", "C"], [[0, 10, 60], [10, 0, 5], [60, 5, 0]]⟩

/-- Length of a `flatMap` whose pieces all have length `n`. -/
lemma flatMap_length_uniform {α β : Type} (l : List α) (f : α → List β)
    (n : Nat) (h : ∀ a ∈ l, (f a).length = n) :
    (l.flatMap f).length = l.length * n := by
  induction l with
  | nil => simp
  | cons a tl ih =>
    rw [List.flatMap_cons, List.length_append, h a (List.mem_cons_self a tl),
      ih fun b hb => h b (List.mem_cons_of_mem a hb), List.length_cons]
    ring

/-- Indexing a `flatMap` whose pieces all have length `n`: position
`i * n + j` lands in piece `i` at offset `j`. -/
lemma flatMap_getElem?_uniform {α β : Type} (f : α → List β) (n j : Nat)
    (hj : j < n) :
    ∀ (l : List α) (i : Nat) (hi : i < l.length),
      (∀ a ∈ l, (f a).length = n) →
      (l.flatMap f)[i * n + j]? = (f l[i])[j]? := by
  intro l
  induction l with
  | nil => intro i hi; simp at hi
  | cons a tl ih =>
    intro i hi h
    have hlen : (f a).length = n := h a (List.mem_cons_self a tl)
    rw [List.flatMap_cons]
    cases i with
    | zero =>
      have hj' : 0 * n + j < (f a).length := by rw [hlen]; omega
      rw [List.getElem?_append, if_pos hj']
      simp
    | succ i' =>
      have hmul : (i' + 1) * n = i' * n + n := by ring
      have hge : (f a).length ≤ (i' + 1) * n + j := by rw [hlen]; omega
      rw [List.getElem?_append_right hge]
      have harith : (i' + 1) * n + j - (f a).length = i' * n + j := by
        rw [hlen]; omega
      have hi' : i' < tl.length := by
        simp only [List.length_cons] at hi; omega
      rw [harith, ih i' hi' fun b hb => h b (List.mem_cons_of_mem a hb)]
      simp

/-- The edge emitted by `toEdges` for cell `(i, j)` of a square matrix
sits at position `i * n + j` of the edge list. -/
lemma toEdges_cell (df : DataFrame)
    (hd : df.data.length = df.index.length)
    (hc : df.columns.length = df.index.length)
    (hrow : ∀ row ∈ df.data, row.length = df.index.length)
    (i j : Nat) (hi : i < df.index.length) (hj : j < df.index.length) :
    (toEdges df)[i * df.index.length + j]? = some
      { source_name := df.index.getD i ""
        target_name := df.columns.getD j ""
        value := (df.data.getD i []).getD j 0
        source := name_to_id df.index (df.index.getD i "")
        target := name_to_id df.index (df.columns.getD j "") } := by
  have hzlen : (df.index.zip df.data).length = df.index.length := by
    rw [List.length_zip, hd, Nat.min_self]
  have hinner : ∀ p ∈ df.index.zip df.data,
      ((df.columns.zip p.2).map (fun q =>
        ({ source_name := p.1, target_name := q.1, value := q.2,
           source := name_to_id df.index p.1,
           target := name_to_id df.index q.1 } : Edge))).length
        = df.index.length := by
    intro p hp
    obtain ⟨x, y⟩ := p
    rw [List.length_map, List.length_zip, hc,
      hrow y (List.of_mem_zip hp).2, Nat.min_self]
  have hi' : i < (df.index.zip df.data).length := by rw [hzlen]; exact hi
  rw [toEdges, flatMap_getElem?_uniform _ df.index.length j hj _ i hi' hinner]
  have hid : i < df.data.length := by rw [hd]; exact hi
  have hzip : (df.index.zip df.data)[i] = (df.index[i], df.data[i]) :=
    List.getElem_zip ..
  rw [hzip, List.getElem?_map]
  have hjc : j < df.columns.length := by rw [hc]; exact hj
  have hjr : j < df.data[i].length := by
    rw [hrow df.data[i] (df.data.getElem_mem hid)]; exact hj
  have hjz : j < (df.columns.zip df.data[i]).length := by
    rw [List.length_zip]; omega
  rw [List.getElem?_eq_getElem hjz, List.getElem_zip]
  rw [List.getD_eq_getElem df.index "" hi, List.getD_eq_getElem df.columns "" hjc,
    List.getD_eq_getElem df.data [] hid, List.getD_eq_getElem df.data[i] 0 hjr]
  rfl

/-- C3: for a square labeled matrix with `n` categories, toEdges yields
exactly `n * n` edges, and the edge at position `i * n + j` is the one
for the ordered pair `(i, j)`: its value is `matrix[i][j]`, its source
is row `i`'s label and its target is column `j`'s label. -/
theorem toEdges_all_pairs (df : DataFrame)
    (hd : df.data.length = df.index.length)
    (hc : df.columns.length = df.index.length)
    (hrow : ∀ row ∈ df.data, row.length = df.index.length) :
    (toEdges df).length = df.index.length * df.index.length
    ∧ ∀ i j, i < df.index.length → j < df.index.length →
        ((toEdges df)[i * df.index.length + j]?).map Edge.value
          = some ((df.data.getD i []).getD j 0)
        ∧ ((toEdges df)[i * df.index.length + j]?).map Edge.source_name
          = some (df.index.getD i "")
        ∧ ((toEdges df)[i * df.index.length + j]?).map Edge.target_name
          = some (df.columns.getD j "") := by
  constructor
  · have hinner : ∀ p ∈ df.index.zip df.data,
        ((df.columns.zip p.2).map (fun q =>
          ({ source_name := p.1, target_name := q.1, value := q.2,
             source := name_to_id df.index p.1,
             target := name_to_id df.index q.1 } : Edge))).length
          = df.index.length := by
      intro p hp
      obtain ⟨x, y⟩ := p
      rw [List.length_map, List.length_zip, hc,
        hrow y (List.of_mem_zip hp).2, Nat.min_self]
    rw [toEdges, flatMap_length_uniform _ _ df.index.length hinner,
      List.length_zip, hd, Nat.min_self]
  · intro i j hi hj
    rw [toEdges_cell df hd hc hrow i j hi hj]
    exact ⟨rfl, rfl, rfl⟩

/-- Witness for `toEdges_all_pairs` at a concrete 2×2 matrix. -/
theorem toEdges_all_pairs_witness :
    (toEdges ⟨["x", "y"], ["x", "y"], [[1, 2], [3, 4]]⟩).length = 2 * 2
    ∧ ((toEdges ⟨["x", "y"], ["x", "y"], [[1, 2], [3, 4]]⟩)[1 * 2 + 0]?).map
        Edge.value = some 3 :=
  ⟨(toEdges_all_pairs ⟨["x", "y"], ["x", "y"], [[1, 2], [3, 4]]⟩
      rfl rfl (by decide)).1,
   ((toEdges_all_pairs ⟨["x", "y"], ["x", "y"], [[1, 2], [3, 4]]⟩
      rfl rfl (by decide)).2 1 0 (by decide) (by decide)).1⟩

/-- C10: toEdges emits edges in row-major order: the edge at position
`p` has the row label at `p / n` as its source and the column label at
`p % n` as its target, so all edges of source row `i` occupy the
contiguous block before those of row `i + 1`, in column order. -/
theorem toEdges_row_major (df : DataFrame)
    (hd : df.data.length = df.index.length)
    (hc : df.columns.length = df.index.length)
    (hrow : ∀ row ∈ df.data, row.length = df.index.length) :
    ∀ p, p < df.index.length * df.index.length →
      ((toEdges df)[p]?).map Edge.source_name
        = some (df.index.getD (p / df.index.length) "")
      ∧ ((toEdges df)[p]?).map Edge.target_name
        = some (df.columns.getD (p % df.index.length) "") := by
  intro p hp
  have hn0 : 0 < df.index.length := by
    rcases Nat.eq_zero_or_pos df.index.length with h0 | h0
    · rw [h0] at hp; omega
    · exact h0
  have hi : p / df.index.length < df.index.length :=
    (Nat.div_lt_iff_lt_mul hn0).mpr hp
  have hj : p % df.index.length < df.index.length := Nat.mod_lt _ hn0
  have hp' : p / df.index.length * df.index.length + p % df.index.length
      = p := by
    rw [Nat.mul_comm]
    exact Nat.div_add_mod p df.index.length
  have hcell := toEdges_cell df hd hc hrow
    (p / df.index.length) (p % df.index.length) hi hj
  rw [hp'] at hcell
  rw [hcell]
  exact ⟨rfl, rfl⟩

/-- Witness for `toEdges_row_major` at a concrete 2×2 matrix, position 2
(= row 1, column 0). -/
theorem toEdges_row_major_witness :
    ((toEdges ⟨["x", "y"], ["x", "y"], [[1, 2], [3, 4]]⟩)[2]?).map
        Edge.source_name = some "y"
    ∧ ((toEdges ⟨["x", "y"], ["x", "y"], [[1, 2], [3, 4]]⟩)[2]?).map
        Edge.target_name = some "x" :=
  toEdges_row_major ⟨["x", "y"], ["x", "y"], [[1, 2], [3, 4]]⟩
    rfl rfl (by decide) 2 (by decide)

/-- C8: filterEdges is a stable filter: the surviving edges form a
subsequence of the input, i.e. they appear in their original relative
order with no re-sorting. -/
theorem filterEdges_stable (edges : List Edge) (t : Nat) :
    (filterEdges edges t).Sublist edges :=
  List.filter_sublist edges

/-- C2: filterEdges is monotonic in the threshold: raising the threshold
can only shrink the surviving set. -/
theorem filterEdges_threshold_monotone (edges : List Edge) (t₁ t₂ : Nat)
    (h : t₁ ≤ t₂) :
    ∀ e ∈ filterEdges edges t₂, e ∈ filterEdges edges t₁ := by
  intro e he
  rw [filterEdges, List.mem_filter] at he ⊢
  refine ⟨he.1, ?_⟩
  have h2 := he.2
  simp only [Bool.and_eq_true, decide_eq_true_eq] at h2 ⊢
  exact ⟨h2.1, le_trans h h2.2⟩

/-- Witness for `filterEdges_threshold_monotone` at a concrete input. -/
theorem filterEdges_threshold_monotone_witness :
    ⟨"a", "b", 9, some 0, some 1⟩ ∈
      filterEdges [⟨"a", "b", 9, some 0, some 1⟩] 2 :=
  filterEdges_threshold_monotone [⟨"a", "b", 9, some 0, some 1⟩] 2 7
    (by decide) ⟨"a", "b", 9, some 0, some 1⟩ (by decide)

/-- For an edge whose two id cells are both filled (no NaN), the pandas
`!=` test coincides with id inequality. -/
lemma idNe_eq_ne {e : Edge} (hs : e.source.isSome) (ht : e.target.isSome) :
    idNe e.source e.target = true ↔ e.source ≠ e.target := by
  obtain ⟨a, ha⟩ := Option.isSome_iff_exists.mp hs
  obtain ⟨b, hb⟩ := Option.isSome_iff_exists.mp ht
  rw [ha, hb]
  simp [idNe]

/-- C1: for edges whose id cells are filled (every Edge of the data
model carries two Nodes), filterEdges keeps exactly the edges whose
source id differs from their target id and whose value is at least the
threshold; with threshold 0 every non-self edge is kept; with any
threshold strictly above a bound on all edge values (in particular above
the matrix's global maximum) the result is empty. -/
theorem filterEdges_keeps_exactly (edges : List Edge) (t : Nat)
    (hids : ∀ e ∈ edges, e.source.isSome ∧ e.target.isSome) :
    (∀ e, e ∈ filterEdges edges t ↔
      e ∈ edges ∧ e.source ≠ e.target ∧ t ≤ e.value)
    ∧ (∀ e ∈ edges, e.source ≠ e.target → e ∈ filterEdges edges 0)
    ∧ (∀ M, (∀ e ∈ edges, e.value ≤ M) → M < t → filterEdges edges t = []) := by
  have key : ∀ (s : Nat) (e : Edge), e ∈ filterEdges edges s ↔
      e ∈ edges ∧ e.source ≠ e.target ∧ s ≤ e.value := by
    intro s e
    rw [filterEdges, List.mem_filter, Bool.and_eq_true, decide_eq_true_eq]
    constructor
    · rintro ⟨hmem, hne, hle⟩
      exact ⟨hmem, (idNe_eq_ne (hids e hmem).1 (hids e hmem).2).mp hne, hle⟩
    · rintro ⟨hmem, hne, hle⟩
      exact ⟨hmem, ⟨(idNe_eq_ne (hids e hmem).1 (hids e hmem).2).mpr hne, hle⟩⟩
  refine ⟨key t, ?_, ?_⟩
  · intro e hmem hne
    exact (key 0 e).mpr ⟨hmem, hne, Nat.zero_le _⟩
  · intro M hM hlt
    rw [filterEdges, List.filter_eq_nil_iff]
    intro e hmem
    simp only [Bool.and_eq_true, decide_eq_true_eq, not_and]
    intro _
    have := hM e hmem
    omega

/-- Witness for `filterEdges_keeps_exactly`: at threshold 2 the concrete
non-self edge of value 3 is kept. -/
theorem filterEdges_keeps_exactly_witness :
    ⟨"a", "b", 3, some 0, some 1⟩ ∈
      filterEdges [⟨"a", "b", 3, some 0, some 1⟩] 2 :=
  ((filterEdges_keeps_exactly [⟨"a", "b", 3, some 0, some 1⟩] 2
      (by decide)).1 ⟨"a", "b", 3, some 0, some 1⟩).mpr (by decide)

/-- C4: toNodes yields one Node per row in row order, the id of the node
at position `i` is `i` and its name is the row label at `i`; hence the
ids are exactly the contiguous range `0..n-1` with no duplicates. -/
theorem toNodes_positional (df : DataFrame) :
    (toNodes df).length = df.index.length
    ∧ (∀ i, i < df.index.length →
        (toNodes df)[i]? = some ⟨i, df.index.getD i ""⟩)
    ∧ (toNodes df).map Node.id = List.range df.index.length := by
  refine ⟨?_, ?_, ?_⟩
  · simp [toNodes]
  · intro i hi
    have h' : df.index[i]? = some (df.index.getD i "") := by
      rw [List.getElem?_eq_getElem hi, List.getD_eq_getElem _ _ hi]
    rw [toNodes, List.getElem?_map, List.getElem?_enum, h']
    rfl
  · have hfun : (Node.id ∘ fun p : Nat × String =>
        ({ id := p.1, name := p.2 } : Node)) = Prod.fst :=
      funext fun p => rfl
    rw [toNodes, List.map_map, hfun, List.enum_map_fst]

/-- Witness for `toNodes_positional` at a concrete two-row matrix. -/
theorem toNodes_positional_witness :
    (toNodes ⟨["x", "y"], ["x", "y"], [[1, 2], [3, 4]]⟩)[1]?
      = some ⟨1, "y"⟩ :=
  (toNodes_positional ⟨["x", "y"], ["x", "y"], [[1, 2], [3, 4]]⟩).2.1 1
    (by decide)

/-- C5 counterexample: a file that exists but cannot be parsed makes
`load_data` raise an uncaught exception (only `FileNotFoundError` is
caught), and a parseable but non-square, label-mismatched matrix is
returned as a matrix with no validation — in neither case does load
yield a typed ParseError. -/
theorem load_data_no_parse_error :
    load_data FileResult.parseFailure = LoadResult.uncaught
    ∧ load_data (FileResult.parsed ⟨["a", "b"], ["a"], [[1], [2]]⟩)
        = LoadResult.matrix ⟨["a", "b"], ["a"], [[1], [2]]⟩ := by
  constructor
  · rfl
  · rw [load_data]
    decide

/-- C5 amended: a missing file is caught and yields the handled
not-found outcome (error message, `None` returned); a parse failure
propagates as an uncaught exception; and any parsed matrix without a
"general" column is returned as-is, with no squareness or label
validation. -/
theorem load_data_error_behavior :
    load_data FileResult.notFound = LoadResult.errorNone
    ∧ load_data FileResult.parseFailure = LoadResult.uncaught
    ∧ ∀ df : DataFrame, "general" ∉ df.columns →
        load_data (FileResult.parsed df) = LoadResult.matrix df := by
  refine ⟨rfl, rfl, ?_⟩
  intro df hc
  rw [load_data, if_neg hc]

/-- Witness for `load_data_error_behavior` at a concrete non-square
matrix. -/
theorem load_data_error_behavior_witness :
    load_data (FileResult.parsed ⟨["a", "b"], ["c"], [[1], [2]]⟩)
      = LoadResult.matrix ⟨["a", "b"], ["c"], [[1], [2]]⟩ :=
  load_data_error_behavior.2.2 ⟨["a", "b"], ["c"], [[1], [2]]⟩ (by decide)

/-- The node names produced by `toNodes` are exactly the row labels. -/
lemma toNodes_map_name (d : DataFrame) :
    (toNodes d).map Node.name = d.index := by
  have hfun : (Node.name ∘ fun p : Nat × String =>
      ({ id := p.1, name := p.2 } : Node)) = Prod.snd :=
    funext fun p => rfl
  rw [toNodes, List.map_map, hfun, List.enum_map_snd]

/-- Every edge of `toEdges` draws its source name from the row labels
and its target name from the column labels. -/
lemma toEdges_names_mem (d : DataFrame) (e : Edge) (he : e ∈ toEdges d) :
    e.source_name ∈ d.index ∧ e.target_name ∈ d.columns := by
  rw [toEdges, List.mem_flatMap] at he
  obtain ⟨p, hp, he⟩ := he
  rw [List.mem_map] at he
  obtain ⟨q, hq, rfl⟩ := he
  obtain ⟨x, y⟩ := p
  obtain ⟨qa, qb⟩ := q
  exact ⟨(List.of_mem_zip hp).1, (List.of_mem_zip hq).1⟩

/-- C6: when the input has both a "general" row and a "general" column,
load returns a matrix with no "general" row or column, and no node from
toNodes and no edge from toEdges or filterEdges of that matrix mentions
"general". -/
theorem load_data_removes_general (df : DataFrame)
    (hc : "general" ∈ df.columns) (hr : "general" ∈ df.index) :
    ∃ df', load_data (FileResult.parsed df) = LoadResult.matrix df'
      ∧ "general" ∉ df'.index
      ∧ "general" ∉ df'.columns
      ∧ (∀ nd ∈ toNodes df', nd.name ≠ "general")
      ∧ (∀ e ∈ toEdges df',
          e.source_name ≠ "general" ∧ e.target_name ≠ "general")
      ∧ ∀ t, ∀ e ∈ filterEdges (toEdges df') t,
          e.source_name ≠ "general" ∧ e.target_name ≠ "general" := by
  refine ⟨dropRow (dropCol df "general") "general", ?_, ?_, ?_, ?_, ?_, ?_⟩
  · rw [load_data, if_pos hc, if_pos hr]
  · simp [dropRow, dropCol]
  · simp [dropRow, dropCol]
  · intro nd hnd
    have : nd.name ∈ (dropRow (dropCol df "general") "general").index :=
      toNodes_map_name _ ▸ List.mem_map_of_mem Node.name hnd
    simp only [dropRow, dropCol, List.mem_filter, decide_eq_true_eq] at this
    exact this.2
  · intro e he
    have hmem := toEdges_names_mem _ e he
    constructor
    · have := hmem.1
      simp only [dropRow, dropCol, List.mem_filter, decide_eq_true_eq] at this
      exact this.2
    · have := hmem.2
      simp only [dropRow, dropCol, List.mem_filter, decide_eq_true_eq] at this
      exact this.2
  · intro t e he
    have hmem := toEdges_names_mem _ e (List.mem_of_mem_filter he)
    constructor
    · have := hmem.1
      simp only [dropRow, dropCol, List.mem_filter, decide_eq_true_eq] at this
      exact this.2
    · have := hmem.2
      simp only [dropRow, dropCol, List.mem_filter, decide_eq_true_eq] at this
      exact this.2

/-- Witness for `load_data_removes_general` at a concrete matrix with a
"general" row and column. -/
theorem load_data_removes_general_witness :
    ∃ df', load_data (FileResult.parsed
        ⟨["general", "a"], ["general", "a"], [[1, 2], [3, 4]]⟩)
        = LoadResult.matrix df'
      ∧ "general" ∉ df'.index
      ∧ "general" ∉ df'.columns
      ∧ (∀ nd ∈ toNodes df', nd.name ≠ "general")
      ∧ (∀ e ∈ toEdges df',
          e.source_name ≠ "general" ∧ e.target_name ≠ "general")
      ∧ ∀ t, ∀ e ∈ filterEdges (toEdges df') t,
          e.source_name ≠ "general" ∧ e.target_name ≠ "general" :=
  load_data_removes_general
    ⟨["general", "a"], ["general", "a"], [[1, 2], [3, 4]]⟩
    (by decide) (by decide)

/-- C7 counterexample: on the §8 example matrix, threshold 6 keeps four
edges (both A-B=10 cells also pass `value >= 6`), not exactly one. -/
theorem exampleMatrix_threshold6_not_single :
    (filterEdges (toEdges exampleMatrix) 6).length = 4
    ∧ (filterEdges (toEdges exampleMatrix) 6).length ≠ 1 := by
  decide

/-- C7 amended: on the §8 example matrix, threshold 6 keeps exactly the
four edges A→B=10, A→C=60, B→A=10, C→A=60, in row-major order — both
stored directions of each unordered pair with value ≥ 6 survive. -/
theorem exampleMatrix_threshold6_edges :
    (filterEdges (toEdges exampleMatrix) 6).map
        (fun e => (e.source_name, e.target_name, e.value))
      = [("A", "B", 10), ("A", "C", 60), ("B", "A", 10), ("C", "A", 60)] := by
  decide

/-- C9: the "general" removal is guarded only by membership in the
column labels: when "general" is a row label but not a column label,
load returns the matrix unchanged, with the "general" row still
present. -/
theorem load_data_general_row_kept (df : DataFrame)
    (hr : "general" ∈ df.index) (hc : "general" ∉ df.columns) :
    load_data (FileResult.parsed df) = LoadResult.matrix df
    ∧ "general" ∈ df.index := by
  refine ⟨?_, hr⟩
  rw [load_data, if_neg hc]

/-- Witness for `load_data_general_row_kept` at a concrete matrix with a
"general" row but no "general" column. -/
theorem load_data_general_row_kept_witness :
    load_data (FileResult.parsed ⟨["general", "a"], ["a", "b"],
        [[1, 2], [3, 4]]⟩)
      = LoadResult.matrix ⟨["general", "a"], ["a", "b"], [[1, 2], [3, 4]]⟩
    ∧ "general" ∈ (⟨["general", "a"], ["a", "b"],
        [[1, 2], [3, 4]]⟩ : DataFrame).index :=
  load_data_general_row_kept ⟨["general", "a"], ["a", "b"], [[1, 2], [3, 4]]⟩
    (by decide) (by decide)

end Shhor
